import Mathlib

/-!
Verification of the upload / transcription / translation pipeline and the
user-record store of `app/main.py`.

The embedding is shallow: the Python functions are translated into pure Lean
functions.  File writes are modelled by an association list from paths to
contents (a later write to the same path shadows the earlier one, matching
`open(path, "w")` truncation).  The external services (moviepy audio
extraction, the Whisper model, the OpenAI chat completion) are modelled as
environment fields of type `Except String _`: `.ok` is a normal return and
`.error msg` is a raised exception whose `str(e)` is `msg`.

Python float timestamps are modelled as rationals; `fmt2` embeds the
`format(t, ".2f")` rendering (two decimal digits, round half to even) used by
both artifact writers.
-/

/-- Whitespace characters stripped by the Python method `str.strip()`
(ASCII portion). -/
def isPyWS (c : Char) : Bool :=
  c == ' ' || c == '\t' || c == '\n' || c == '\r' || c == '\x0b' || c == '\x0c'

/-- Embedding of the Python method `str.strip()`: drop leading and trailing
whitespace. -/
def pyStrip (s : String) : String :=
  ⟨((s.data.dropWhile isPyWS).reverse.dropWhile isPyWS).reverse⟩

/-- Embedding of the Python ".2f" format specifier on a rational timestamp:
round half to even at two decimal places and render with exactly two digits
after the decimal point. -/
def fmt2 (q : ℚ) : String :=
  let t : Int := 100 * q.num
  let d : Int := (q.den : Int)
  let fl : Int := Int.fdiv t d
  let r : Int := t % d
  let n : Int :=
    if 2 * r < d then fl
    else if d < 2 * r then fl + 1
    else if fl % 2 = 0 then fl else fl + 1
  let sign : String := if n < 0 then "-" else ""
  let a : Nat := n.natAbs
  sign ++ toString (a / 100) ++ "." ++
    (if a % 100 < 10 then "0" else "") ++ toString (a % 100)

/-- One timed segment produced by `model.transcribe` (`result["segments"]`):
start second, end second, text. -/
structure TranscriptSegment where
  start : ℚ
  end_ : ℚ
  text : String
  deriving DecidableEq, Repr

/-- One per-segment translation result, correlated with the transcript
segment at the same position: same timing, and either the translated text or
the inline failure rendering. -/
structure TranslatedSegment where
  start : ℚ
  end_ : ℚ
  text_or_error : String
  deriving DecidableEq, Repr

/-- The per-line format used by both artifact writers in
`upload_and_transcribe` (lines 258 and 280 of `app/main.py`). -/
def segLine (s e : ℚ) (text : String) : String :=
  "[" ++ fmt2 s ++ "s - " ++ fmt2 e ++ "s] " ++ text

/-- Header line of the transcript artifact (line 253 of `app/main.py`). -/
def headerKo : String := "[한글번역]"

/-- Header line of the translation artifact (line 266 of `app/main.py`). -/
def headerEn : String := "[영어번역]"

/-- The sentinel failure marker written for a segment whose translation call
raised (line 285 of `app/main.py`); it embeds the original segment text. -/
def failMarker (text : String) : String := "번역 실패: " ++ text

/-- The display text the translation loop produces for one segment
(lines 271 to 287 of `app/main.py`): on success the returned content stripped
of surrounding whitespace, on a raised exception the sentinel failure marker
embedding the original text. -/
def translatedDisplay (tr : TranscriptSegment → Except String String)
    (seg : TranscriptSegment) : String :=
  match tr seg with
  | .ok content => pyStrip content
  | .error _ => failMarker seg.text

/-- The line written to the translation artifact for one segment. -/
def translationLine (tr : TranscriptSegment → Except String String)
    (seg : TranscriptSegment) : String :=
  segLine seg.start seg.end_ (translatedDisplay tr seg)

/-- The data lines of the transcript artifact, one per segment, in input
order. -/
def transcriptLines (segs : List TranscriptSegment) : List String :=
  segs.map (fun seg => segLine seg.start seg.end_ seg.text)

/-- The data lines of the translation artifact, one per segment, in input
order. -/
def translationLines (tr : TranscriptSegment → Except String String)
    (segs : List TranscriptSegment) : List String :=
  segs.map (translationLine tr)

/-- The ordered sequence of per-segment translation results produced by the
translation loop, one `TranslatedSegment` per input segment. -/
def translated_segments (tr : TranscriptSegment → Except String String)
    (segs : List TranscriptSegment) : List TranslatedSegment :=
  segs.map (fun seg => { start := seg.start, end_ := seg.end_,
                         text_or_error := translatedDisplay tr seg })

/-- Contents of the transcript artifact file as written on lines 252 to 258
of `app/main.py`: the header write followed by one write per segment, each
newline terminated. -/
def transcriptContents (segs : List TranscriptSegment) : String :=
  segs.foldl (fun acc seg => acc ++ segLine seg.start seg.end_ seg.text ++ "\n")
    (headerKo ++ "\n")

/-- Contents of the translation artifact file as written on lines 265 to 287
of `app/main.py`: the header write followed by one write per segment, each
newline terminated. -/
def translationContents (tr : TranscriptSegment → Except String String)
    (segs : List TranscriptSegment) : String :=
  segs.foldl (fun acc seg => acc ++ translationLine tr seg ++ "\n")
    (headerEn ++ "\n")

/-- A list of newline-terminated lines rendered as one string. -/
def linesJoin : List String → String
  | [] => ""
  | l :: ls => l ++ "\n" ++ linesJoin ls

/-- Durable storage: an association list from path to file contents; a later
write to the same path shadows the earlier one, as `open(path, "w")` does. -/
abbrev FS := List (String × String)

/-- Write (create or truncate) the file at `path`. -/
def fsWrite (fs : FS) (path contents : String) : FS := (path, contents) :: fs

/-- Read back the current contents of the file at `path`. -/
def fsRead (fs : FS) (path : String) : Option String :=
  (fs.find? (fun e => e.1 == path)).map (fun e => e.2)

/-- Index of the last occurrence of `c` in `cs`, if any. -/
def rfind (cs : List Char) (c : Char) : Option Nat :=
  ((cs.enum.filter (fun pr => pr.2 == c)).getLast?).map (fun pr => pr.1)

/-- Embedding of `os.path.splitext(p)[0]`: the path without its final
extension.  The extension starts at the last dot of the base name, provided
some earlier character of the base name is not a dot (so a leading-dot name
has no extension). -/
def stemOf (p : String) : String :=
  let cs := p.data
  let base : Nat :=
    match rfind cs '/' with
    | some i => i + 1
    | none => 0
  match rfind cs '.' with
  | some d =>
    if base ≤ d then
      if ((cs.drop base).take (d - base)).any (fun ch => ch != '.') then
        ⟨cs.take d⟩
      else p
    else p
  | none => p

/-- Saved upload path (line 231 of `app/main.py`), modelling
`os.path.join("uploaded_videos", filename)` for a relative file name. -/
def video_path (fname : String) : String := "uploaded_videos/" ++ fname

/-- Extracted audio path (line 238 of `app/main.py`). -/
def audio_path (fname : String) : String :=
  "extracted_audio/" ++ stemOf fname ++ ".wav"

/-- Transcript artifact path (line 250 of `app/main.py`). -/
def transcription_file (fname : String) : String :=
  "extracted_audio/" ++ stemOf fname ++ "_transcription.txt"

/-- Translation artifact path (line 264 of `app/main.py`). -/
def translation_file (fname : String) : String :=
  "extracted_audio/" ++ stemOf fname ++ "_translation.txt"

/-- The external effects of one pipeline run: the audio extraction step
(returning the extracted audio bytes), the Whisper transcription call
(returning the segment sequence) and the per-segment chat-completion call
(returning the raw message content before stripping).  An `.error msg` models
a raised exception with `str(e) = msg`. -/
structure PipelineEnv where
  extractAudio : Except String String
  transcribe : Except String (List TranscriptSegment)
  translateSeg : TranscriptSegment → Except String String

/-- The success payload returned on line 292 of `app/main.py`. -/
structure SttResponse where
  transcription : String
  translation : String
  deriving DecidableEq, Repr

/-- The single failure detail produced by the catch-all handler on line 299
of `app/main.py`: a fixed prefix followed by `str(e)`, with no stage name. -/
def sttFailMsg (e : String) : String := "STT 또는 번역 실패: " ++ e

/-- Embedding of the `/stt-video` handler `upload_and_transcribe`
(lines 222 to 299 of `app/main.py`): persist the upload, extract audio,
transcribe, write the transcript artifact, translate segment by segment
writing the translation artifact, then read both files back as the response.
Any exception escaping a stage is caught by the single outer handler and
surfaced as `.error (sttFailMsg msg)`. -/
def upload_and_transcribe (fname content : String) (env : PipelineEnv)
    (fs : FS) : FS × Except String SttResponse :=
  let fs1 := fsWrite fs (video_path fname) content
  match env.extractAudio with
  | .error e => (fs1, .error (sttFailMsg e))
  | .ok audioBytes =>
    let fs2 := fsWrite fs1 (audio_path fname) audioBytes
    match env.transcribe with
    | .error e => (fs2, .error (sttFailMsg e))
    | .ok segs =>
      let fs3 := fsWrite fs2 (transcription_file fname) (transcriptContents segs)
      let fs4 := fsWrite fs3 (translation_file fname)
        (translationContents env.translateSeg segs)
      (fs4, .ok { transcription := (fsRead fs4 (transcription_file fname)).getD ""
                  translation := (fsRead fs4 (translation_file fname)).getD "" })

/-- Resource trace of the extraction step, lines 239 to 241 of `app/main.py`:
`audio_clip = AudioFileClip(video_path)` then
`audio_clip.write_audiofile(audio_path)` then `audio_clip.close()`.  There is
no `with` block and no `try/finally`, so the `close()` on line 241 executes
only when both preceding calls return normally; an exception from either call
propagates to the outer handler of line 297.  `openFails` models the
constructor raising, `writeFails` models `write_audiofile` raising. -/
structure AudioExtraction where
  clipOpened : Bool
  clipClosed : Bool
  audioWritten : Bool
  failed : Bool
  deriving DecidableEq, Repr

/-- Embedding of the extraction step of lines 239 to 241 of `app/main.py`,
recording whether the decoder handle was opened and whether it was closed. -/
def extract_audio (openFails writeFails : Bool) : AudioExtraction :=
  if openFails then
    { clipOpened := false, clipClosed := false, audioWritten := false, failed := true }
  else if writeFails then
    { clipOpened := true, clipClosed := false, audioWritten := false, failed := true }
  else
    { clipOpened := true, clipClosed := true, audioWritten := true, failed := false }

/-- One row of the `users` table. -/
structure UserRow where
  user_id : Nat
  username : String
  password : String
  deriving DecidableEq, Repr

/-- The `users` table: its rows plus the next identity value the
`AUTO_INCREMENT` column will assign (always larger than every assigned id). -/
structure DB where
  rows : List UserRow
  nextId : Nat
  deriving DecidableEq, Repr

/-- The response model `User` of `app/main.py`. -/
structure User where
  user_id : Nat
  username : String
  deriving DecidableEq, Repr

/-- Detail of the duplicate-username failure (line 143 of `app/main.py`). -/
def dupDetail : String := "이미 사용 중인 사용자 이름입니다."

/-- Detail of the user-not-found failure (line 195 of `app/main.py`). -/
def notFoundDetail : String := "사용자를 찾을 수 없습니다."

/-- Embedding of `SELECT MAX(user_id) FROM users` (line 150 of
`app/main.py`); `MAX` of an empty table is modelled as 0. -/
def maxUserId (rows : List UserRow) : Nat :=
  rows.foldl (fun m r => max m r.user_id) 0

/-- Embedding of `create_user` (lines 129 to 158 of `app/main.py`): reject a
duplicate username, otherwise insert the row (the identity column assigns
`nextId`), then answer with the table-wide maximum user id and the given
username. -/
def create_user (db : DB) (username password : String) :
    DB × Except String User :=
  match db.rows.find? (fun r => r.username == username) with
  | some _ => (db, .error dupDetail)
  | none =>
    let db2 : DB :=
      { rows := db.rows ++ [{ user_id := db.nextId, username := username,
                              password := password }],
        nextId := db.nextId + 1 }
    (db2, .ok { user_id := maxUserId db2.rows, username := username })

/-- Variant of `create_user` exposing the race on lines 146 to 152 of
`app/main.py`: `others` are rows committed by concurrent requests between
this request's `INSERT` commit and its `SELECT MAX(user_id)` query, so the
`MAX` query sees them. -/
def create_user_interleaved (db : DB) (username password : String)
    (others : List UserRow) : DB × Except String User :=
  match db.rows.find? (fun r => r.username == username) with
  | some _ => (db, .error dupDetail)
  | none =>
    let committed := db.rows ++ [{ user_id := db.nextId, username := username,
                                   password := password }] ++ others
    ({ rows := committed, nextId := maxUserId committed + 1 },
     .ok { user_id := maxUserId committed, username := username })

/-- Embedding of `list_users` (lines 165 to 177 of `app/main.py`). -/
def list_users (db : DB) : List User :=
  db.rows.map (fun r => { user_id := r.user_id, username := r.username })

/-- Embedding of `read_user` (lines 182 to 196 of `app/main.py`). -/
def read_user (db : DB) (uid : Nat) : Except String User :=
  match db.rows.find? (fun r => r.user_id == uid) with
  | some r => .ok { user_id := r.user_id, username := r.username }
  | none => .error notFoundDetail

/-- An integer number of seconds as a rational timestamp. -/
def qsec (n : Int) : ℚ := ⟨n, 1, one_ne_zero, Nat.coprime_one_right _⟩

theorem append_right_inj (s a b : String) (h : s ++ a = s ++ b) : a = b := by
  have h2 : s.data ++ a.data = s.data ++ b.data := by
    have h1 := congrArg String.data h
    simpa [String.data_append] using h1
  have h3 : a.data = b.data := List.append_cancel_left h2
  cases a with
  | mk la =>
    cases b with
    | mk lb => exact congrArg String.mk h3

theorem foldl_lines_eq {α : Type} (f : α → String) (l : List α) (acc : String) :
    l.foldl (fun a x => a ++ f x ++ "\n") acc = acc ++ linesJoin (l.map f) := by
  induction l generalizing acc with
  | nil => simp [linesJoin, String.append_empty]
  | cons x xs ih =>
    simp only [List.foldl, List.map, linesJoin]
    rw [ih]
    simp [String.append_assoc]

theorem transcriptContents_eq (segs : List TranscriptSegment) :
    transcriptContents segs = linesJoin (headerKo :: transcriptLines segs) := by
  unfold transcriptContents transcriptLines
  rw [foldl_lines_eq]
  simp [linesJoin, String.append_assoc]

theorem translationContents_eq (tr : TranscriptSegment → Except String String)
    (segs : List TranscriptSegment) :
    translationContents tr segs
      = linesJoin (headerEn :: translationLines tr segs) := by
  unfold translationContents translationLines
  rw [foldl_lines_eq]
  simp [linesJoin, String.append_assoc]

theorem fsRead_write_same (fs : FS) (p c : String) :
    fsRead (fsWrite fs p c) p = some c := by
  simp [fsRead, fsWrite, List.find?_cons_of_pos]

theorem fsRead_write_other (fs : FS) (p c q : String) (h : q ≠ p) :
    fsRead (fsWrite fs p c) q = fsRead fs q := by
  have hb : ((p, c).1 == q) = false := beq_eq_false_iff_ne.mpr (Ne.symm h)
  simp [fsRead, fsWrite, List.find?_cons_of_neg, hb]

theorem transcription_ne_translation (fname : String) :
    transcription_file fname ≠ translation_file fname := by
  unfold transcription_file translation_file
  intro h
  have h2 := append_right_inj _ _ _ h
  exact absurd h2 (by decide)

theorem run_ok (fname content : String) (env : PipelineEnv) (fs : FS)
    (audioBytes : String) (segs : List TranscriptSegment)
    (hx : env.extractAudio = .ok audioBytes)
    (ht : env.transcribe = .ok segs) :
    upload_and_transcribe fname content env fs
      = (fsWrite (fsWrite (fsWrite (fsWrite fs (video_path fname) content)
            (audio_path fname) audioBytes)
            (transcription_file fname) (transcriptContents segs))
            (translation_file fname) (translationContents env.translateSeg segs),
         .ok { transcription := transcriptContents segs,
               translation := translationContents env.translateSeg segs }) := by
  unfold upload_and_transcribe
  rw [hx, ht]
  dsimp only
  rw [fsRead_write_other _ _ _ _ (transcription_ne_translation fname)]
  rw [fsRead_write_same, fsRead_write_same]
  rfl

theorem find?_username_none_iff (rows : List UserRow) (username : String) :
    rows.find? (fun r => r.username == username) = none
      ↔ ¬ ∃ r ∈ rows, r.username = username := by
  rw [List.find?_eq_none]
  constructor
  · rintro h ⟨r, hr, he⟩
    exact h r hr (by simp [he])
  · intro h r hr hb
    exact h ⟨r, hr, by simpa using hb⟩

theorem find?_userid_none_iff (rows : List UserRow) (uid : Nat) :
    rows.find? (fun r => r.user_id == uid) = none
      ↔ ¬ ∃ r ∈ rows, r.user_id = uid := by
  rw [List.find?_eq_none]
  constructor
  · rintro h ⟨r, hr, he⟩
    exact h r hr (by simp [he])
  · intro h r hr hb
    exact h ⟨r, hr, by simpa using hb⟩

theorem foldl_max_init (l : List UserRow) (a : Nat) :
    l.foldl (fun m r => max m r.user_id) a
      = max a (l.foldl (fun m r => max m r.user_id) 0) := by
  induction l generalizing a with
  | nil => simp
  | cons x xs ih =>
    simp only [List.foldl]
    rw [ih (max a x.user_id), ih (max 0 x.user_id)]
    omega

theorem maxUserId_cons (r : UserRow) (l : List UserRow) :
    maxUserId (r :: l) = max r.user_id (maxUserId l) := by
  unfold maxUserId
  simp only [List.foldl]
  rw [foldl_max_init]
  omega

theorem maxUserId_append (l1 l2 : List UserRow) :
    maxUserId (l1 ++ l2) = max (maxUserId l1) (maxUserId l2) := by
  induction l1 with
  | nil => simp [maxUserId]
  | cons x xs ih =>
    rw [List.cons_append, maxUserId_cons, ih, maxUserId_cons]
    omega

theorem maxUserId_le_iff (l : List UserRow) (b : Nat) :
    maxUserId l ≤ b ↔ ∀ r ∈ l, r.user_id ≤ b := by
  induction l with
  | nil => simp [maxUserId]
  | cons x xs ih =>
    rw [maxUserId_cons, List.forall_mem_cons, ← ih]
    exact max_le_iff

theorem create_user_dup_iff (db : DB) (username password : String) :
    (create_user db username password).2 = .error dupDetail
      ↔ ∃ r ∈ db.rows, r.username = username := by
  cases hf : db.rows.find? (fun r => r.username == username) with
  | some r =>
    have hr := List.mem_of_find?_eq_some hf
    have he : r.username = username := by simpa using List.find?_some hf
    unfold create_user
    rw [hf]
    exact iff_of_true rfl ⟨r, hr, he⟩
  | none =>
    unfold create_user
    rw [hf]
    dsimp only
    exact iff_of_false (by simp) ((find?_username_none_iff db.rows username).mp hf)

theorem create_user_dup_keeps_db (db : DB) (username password : String)
    (h : ∃ r ∈ db.rows, r.username = username) :
    create_user db username password = (db, .error dupDetail) := by
  cases hf : db.rows.find? (fun r => r.username == username) with
  | some r =>
    unfold create_user
    rw [hf]
  | none =>
    exact absurd h ((find?_username_none_iff db.rows username).mp hf)

theorem create_user_success (db : DB) (username password : String)
    (hno : ¬ ∃ r ∈ db.rows, r.username = username)
    (hwf : ∀ r ∈ db.rows, r.user_id < db.nextId) :
    (create_user db username password).2
        = .ok { user_id := db.nextId, username := username }
    ∧ read_user (create_user db username password).1 db.nextId
        = .ok { user_id := db.nextId, username := username } := by
  have hf : db.rows.find? (fun r => r.username == username) = none :=
    (find?_username_none_iff db.rows username).mpr hno
  have hrows : maxUserId db.rows ≤ db.nextId :=
    (maxUserId_le_iff _ _).mpr (fun r hr => Nat.le_of_lt (hwf r hr))
  have hsing : maxUserId [(⟨db.nextId, username, password⟩ : UserRow)] = db.nextId := by
    simp [maxUserId, List.foldl]
  have hmax : maxUserId (db.rows ++ [(⟨db.nextId, username, password⟩ : UserRow)])
      = db.nextId := by
    rw [maxUserId_append, hsing]
    omega
  have hfindid : (db.rows ++ [(⟨db.nextId, username, password⟩ : UserRow)]).find?
        (fun r => r.user_id == db.nextId)
      = some (⟨db.nextId, username, password⟩ : UserRow) := by
    rw [List.find?_append]
    have hnone : db.rows.find? (fun r => r.user_id == db.nextId) = none :=
      List.find?_eq_none.mpr (fun r hr => by
        simp only [beq_iff_eq]
        exact Nat.ne_of_lt (hwf r hr))
    rw [hnone]
    simp [List.find?]
  constructor
  · unfold create_user
    rw [hf]
    dsimp only
    rw [hmax]
  · unfold create_user
    rw [hf]
    dsimp only
    unfold read_user
    rw [hfindid]

theorem read_user_not_found_iff (db : DB) (uid : Nat) :
    read_user db uid = .error notFoundDetail ↔ ¬ ∃ r ∈ db.rows, r.user_id = uid := by
  cases hf : db.rows.find? (fun r => r.user_id == uid) with
  | some r =>
    have hr := List.mem_of_find?_eq_some hf
    have hb : r.user_id = uid := by simpa using List.find?_some hf
    unfold read_user
    rw [hf]
    exact iff_of_false (by simp) (not_not_intro ⟨r, hr, hb⟩)
  | none =>
    unfold read_user
    rw [hf]
    exact iff_of_true rfl ((find?_userid_none_iff db.rows uid).mp hf)

theorem read_user_ok_mem (db : DB) (uid : Nat) (u : User)
    (h : read_user db uid = .ok u) :
    ∃ r ∈ db.rows, r.user_id = uid ∧ u = { user_id := uid, username := r.username } := by
  cases hf : db.rows.find? (fun r => r.user_id == uid) with
  | some r =>
    unfold read_user at h
    rw [hf] at h
    dsimp only at h
    have hb : r.user_id = uid := by simpa using List.find?_some hf
    refine ⟨r, List.mem_of_find?_eq_some hf, hb, ?_⟩
    injection h with h2
    rw [← h2, hb]
  | none =>
    unfold read_user at h
    rw [hf] at h
    exact absurd h (by simp)

/-- C1: if the translation call fails for segment k only, the translation
loop does not abort: every other segment whose call succeeded still gets its
whitespace-trimmed translated text at its own position, segment k gets a line
with its own timing whose text is the sentinel failure marker embedding the
original transcript text, and no segment is dropped (one output line per
input segment). -/
theorem translation_failure_is_isolated
    (segs : List TranscriptSegment) (tr : TranscriptSegment → Except String String)
    (k : Nat) (sk : TranscriptSegment) (err : String)
    (hk : segs.get? k = some sk) (hfail : tr sk = .error err) :
    (translationLines tr segs).get? k
      = some (segLine sk.start sk.end_ (failMarker sk.text))
    ∧ (∀ j sj t, j ≠ k → segs.get? j = some sj → tr sj = .ok t →
        (translationLines tr segs).get? j
          = some (segLine sj.start sj.end_ (pyStrip t)))
    ∧ (translationLines tr segs).length = segs.length := by
  refine ⟨?_, ?_, ?_⟩
  · rw [translationLines, List.get?_map, hk]
    simp [translationLine, translatedDisplay, hfail]
  · intro j sj t _ hj hok
    rw [translationLines, List.get?_map, hj]
    simp [translationLine, translatedDisplay, hok]
  · simp [translationLines]

/-- A three-segment transcript used as a concrete input. -/
def segA : TranscriptSegment := { start := qsec 0, end_ := qsec 1, text := "가" }

/-- Second concrete segment; its translation call fails. -/
def segB : TranscriptSegment := { start := qsec 1, end_ := qsec 2, text := "나" }

/-- Third concrete segment. -/
def segC : TranscriptSegment := { start := qsec 2, end_ := qsec 3, text := "다" }

/-- Concrete transcript segment sequence. -/
def segsW : List TranscriptSegment := [segA, segB, segC]

/-- Concrete translation service: fails on the middle segment, otherwise
returns the text with surrounding whitespace to be stripped. -/
def trW : TranscriptSegment → Except String String :=
  fun s => if s.text == "나" then .error "boom" else .ok ("  " ++ s.text ++ " ")

theorem translation_failure_is_isolated_witness :
    (translationLines trW segsW).get? 1 = some "[1.00s - 2.00s] 번역 실패: 나"
    ∧ (translationLines trW segsW).get? 0 = some "[0.00s - 1.00s] 가"
    ∧ (translationLines trW segsW).get? 2 = some "[2.00s - 3.00s] 다" := by
  have h := translation_failure_is_isolated segsW trW 1 segB "boom" rfl rfl
  refine ⟨h.1.trans (by decide), ?_, ?_⟩
  · exact (h.2.1 0 segA "  가 " (by decide) rfl rfl).trans (by decide)
  · exact (h.2.1 2 segC "  다 " (by decide) rfl rfl).trans (by decide)

/-- C2: for every transcript segment sequence and every behaviour of the
per-segment translation call, the translation artifact consists of exactly
one header line plus one data line per segment — the same line count as the
transcript artifact. -/
theorem translation_artifact_matches_transcript_line_count
    (segs : List TranscriptSegment) (tr : TranscriptSegment → Except String String) :
    (headerEn :: translationLines tr segs).length
      = (headerKo :: transcriptLines segs).length
    ∧ (translationLines tr segs).length = segs.length
    ∧ translationContents tr segs = linesJoin (headerEn :: translationLines tr segs)
    ∧ transcriptContents segs = linesJoin (headerKo :: transcriptLines segs) :=
  ⟨by simp [translationLines, transcriptLines], by simp [translationLines],
   translationContents_eq tr segs, transcriptContents_eq segs⟩

/-- C3: each artifact is written as its header line followed by exactly one
line per segment, every segment line in the canonical fixed format with
two-decimal timestamps. -/
theorem artifact_canonical_line_format
    (segs : List TranscriptSegment) (tr : TranscriptSegment → Except String String) :
    transcriptContents segs
      = linesJoin (headerKo :: segs.map (fun s =>
          "[" ++ fmt2 s.start ++ "s - " ++ fmt2 s.end_ ++ "s] " ++ s.text))
    ∧ translationContents tr segs
      = linesJoin (headerEn :: segs.map (fun s =>
          "[" ++ fmt2 s.start ++ "s - " ++ fmt2 s.end_ ++ "s] " ++ translatedDisplay tr s)) := by
  constructor
  · rw [transcriptContents_eq]; rfl
  · rw [translationContents_eq]; rfl

/-- C4: on every successful run the response payload fields are exactly the
full contents of the transcript artifact and translation artifact files
written to disk during that run. -/
theorem response_equals_persisted_artifacts
    (fname content : String) (env : PipelineEnv) (fs : FS)
    (audioBytes : String) (segs : List TranscriptSegment)
    (hx : env.extractAudio = .ok audioBytes) (ht : env.transcribe = .ok segs) :
    (upload_and_transcribe fname content env fs).2
      = .ok { transcription := transcriptContents segs,
              translation := translationContents env.translateSeg segs }
    ∧ fsRead (upload_and_transcribe fname content env fs).1 (transcription_file fname)
      = some (transcriptContents segs)
    ∧ fsRead (upload_and_transcribe fname content env fs).1 (translation_file fname)
      = some (translationContents env.translateSeg segs) := by
  rw [run_ok fname content env fs audioBytes segs hx ht]
  refine ⟨rfl, ?_, ?_⟩
  · rw [show (fsWrite (fsWrite (fsWrite (fsWrite fs (video_path fname) content)
        (audio_path fname) audioBytes)
        (transcription_file fname) (transcriptContents segs))
        (translation_file fname) (translationContents env.translateSeg segs),
        Except.ok (α := SttResponse)
          { transcription := transcriptContents segs,
            translation := translationContents env.translateSeg segs }).1
      = fsWrite (fsWrite (fsWrite (fsWrite fs (video_path fname) content)
        (audio_path fname) audioBytes)
        (transcription_file fname) (transcriptContents segs))
        (translation_file fname) (translationContents env.translateSeg segs) from rfl]
    rw [fsRead_write_other _ _ _ _ (transcription_ne_translation fname), fsRead_write_same]
  · rw [fsRead_write_same]

/-- Concrete pipeline environment for a fully successful run. -/
def envW : PipelineEnv :=
  { extractAudio := .ok "RIFFWAVEDATA", transcribe := .ok segsW, translateSeg := trW }

theorem response_equals_persisted_artifacts_witness :
    (upload_and_transcribe "v.mp4" "VIDEOBYTES" envW []).2
      = .ok { transcription := transcriptContents segsW,
              translation := translationContents trW segsW }
    ∧ fsRead (upload_and_transcribe "v.mp4" "VIDEOBYTES" envW []).1
        (transcription_file "v.mp4")
      = some (transcriptContents segsW)
    ∧ fsRead (upload_and_transcribe "v.mp4" "VIDEOBYTES" envW []).1
        (translation_file "v.mp4")
      = some (translationContents trW segsW) :=
  response_equals_persisted_artifacts "v.mp4" "VIDEOBYTES" envW [] "RIFFWAVEDATA"
    segsW rfl rfl

/-- Environment in which the audio-extraction stage raises with message
`x`. -/
def envExtractFail : PipelineEnv :=
  { extractAudio := .error "x", transcribe := .ok [], translateSeg := fun _ => .ok "" }

/-- Environment in which the transcription stage raises with message `x`. -/
def envTranscribeFail : PipelineEnv :=
  { extractAudio := .ok "", transcribe := .error "x", translateSeg := fun _ => .ok "" }

/-- C5 counterexample: a fatal failure during audio extraction and a fatal
failure during transcription with the same underlying message produce
byte-identical failure responses, so the error message does not name the
failing stage and the two stages are not distinguishable from the response. -/
theorem stage_error_messages_indistinguishable :
    (upload_and_transcribe "v.mp4" "d" envExtractFail []).2
      = (upload_and_transcribe "v.mp4" "d" envTranscribeFail []).2
    ∧ (upload_and_transcribe "v.mp4" "d" envExtractFail []).2
      = .error "STT 또는 번역 실패: x" :=
  ⟨rfl, rfl⟩

/-- C5 (amended): every run either fails as a whole with the single failure
response carrying the fixed generic message head plus the underlying error
message (with no stage name), or succeeds with the full contents of both
artifacts — never a half-populated success payload. -/
theorem failure_response_single_generic_message
    (fname content : String) (env : PipelineEnv) (fs : FS) :
    (∃ e, (upload_and_transcribe fname content env fs).2 = .error (sttFailMsg e))
    ∨ (∃ segs, env.transcribe = .ok segs
        ∧ (upload_and_transcribe fname content env fs).2
          = .ok { transcription := transcriptContents segs,
                  translation := translationContents env.translateSeg segs }) := by
  cases hx : env.extractAudio with
  | error e =>
    left
    refine ⟨e, ?_⟩
    unfold upload_and_transcribe
    rw [hx]
  | ok audioBytes =>
    cases ht : env.transcribe with
    | error e =>
      left
      refine ⟨e, ?_⟩
      unfold upload_and_transcribe
      rw [hx, ht]
    | ok segs =>
      right
      exact ⟨segs, rfl, by
        rw [run_ok fname content env fs audioBytes segs hx ht]⟩

/-- C6: on the failure path where the decoder handle was opened but writing
the audio file raises, the handle is never closed — the extraction step of
lines 239 to 241 of `app/main.py` has no `try/finally`, so `close()` runs
only on the fully successful path and the handle leaks on write failure. -/
theorem audio_clip_not_closed_on_write_failure :
    (extract_audio false true).clipOpened = true
    ∧ (extract_audio false true).clipClosed = false
    ∧ (extract_audio false true).failed = true
    ∧ (extract_audio false false).clipClosed = true := by
  decide

/-- C7: translation produces exactly one output per input segment, in the
same order, each output carrying the timing of the positionally
corresponding input segment, and the translation artifact lines are exactly
those outputs formatted in order. -/
theorem translation_preserves_length_order_timing
    (segs : List TranscriptSegment) (tr : TranscriptSegment → Except String String) :
    (translated_segments tr segs).length = segs.length
    ∧ (∀ i : Nat, (translated_segments tr segs).get? i
        = (segs.get? i).map (fun s =>
            { start := s.start, end_ := s.end_,
              text_or_error := translatedDisplay tr s }))
    ∧ translationLines tr segs
      = (translated_segments tr segs).map
          (fun t => segLine t.start t.end_ t.text_or_error) := by
  refine ⟨?_, ?_, ?_⟩
  · simp [translated_segments]
  · intro i
    rw [translated_segments, List.get?_map]
  · rw [translationLines, translated_segments, List.map_map]
    rfl

/-- C8 counterexample: an empty uploaded file is not rejected before the
pipeline stages run — the empty upload is persisted to the video path (the
first stage executes) and the run then fails exactly like a non-empty upload
whose audio decode fails, with the generic failure message rather than a
distinct validation error. -/
theorem empty_upload_not_rejected_before_pipeline :
    fsRead (upload_and_transcribe "v.mp4" "" envExtractFail []).1 (video_path "v.mp4")
      = some ""
    ∧ (upload_and_transcribe "v.mp4" "" envExtractFail []).2
      = (upload_and_transcribe "v.mp4" "nonempty" envExtractFail []).2 :=
  ⟨rfl, rfl⟩

/-- C8 (amended): an empty uploaded file is not specially validated; it is
persisted like any other upload, the run proceeds to audio extraction, and
when the decoder rejects it the failure surfaces as the single generic fatal
failure response — no distinct validation error exists. -/
theorem empty_upload_fails_at_extraction
    (fname : String) (env : PipelineEnv) (fs : FS) (msg : String)
    (hx : env.extractAudio = .error msg) :
    upload_and_transcribe fname "" env fs
      = (fsWrite fs (video_path fname) "", .error (sttFailMsg msg)) := by
  unfold upload_and_transcribe
  rw [hx]

theorem empty_upload_fails_at_extraction_witness :
    upload_and_transcribe "v.mp4" "" envExtractFail []
      = (fsWrite [] (video_path "v.mp4") "", .error (sttFailMsg "x")) :=
  empty_upload_fails_at_extraction "v.mp4" envExtractFail [] "x" rfl

/-- C9: in the user-record store, `create_user` fails with the
duplicate-username error exactly when the username already exists, inserts
nothing in that case, and otherwise answers with the new row for the given
username (which `read_user` then finds); `read_user` fails with the
not-found error exactly when no row has the requested id, and otherwise
answers with that row. -/
theorem user_store_create_get_contract
    (db : DB) (username password : String) (uid : Nat)
    (hwf : ∀ r ∈ db.rows, r.user_id < db.nextId) :
    ((create_user db username password).2 = .error dupDetail
      ↔ ∃ r ∈ db.rows, r.username = username)
    ∧ ((create_user db username password).2 = .error dupDetail
      → (create_user db username password).1 = db)
    ∧ ((¬ ∃ r ∈ db.rows, r.username = username)
      → (create_user db username password).2
          = .ok { user_id := db.nextId, username := username }
        ∧ read_user (create_user db username password).1 db.nextId
          = .ok { user_id := db.nextId, username := username })
    ∧ (read_user db uid = .error notFoundDetail ↔ ¬ ∃ r ∈ db.rows, r.user_id = uid)
    ∧ (∀ u, read_user db uid = .ok u
      → ∃ r ∈ db.rows, r.user_id = uid
          ∧ u = { user_id := uid, username := r.username }) := by
  refine ⟨create_user_dup_iff db username password, ?_, ?_,
    read_user_not_found_iff db uid, read_user_ok_mem db uid⟩
  · intro hd
    have hex := (create_user_dup_iff db username password).mp hd
    rw [create_user_dup_keeps_db db username password hex]
  · intro hno
    exact create_user_success db username password hno hwf

/-- A concrete two-user table whose next identity value is 3. -/
def dbW : DB :=
  { rows := [⟨1, "Alice", "alice123"⟩, ⟨2, "Bob", "bob123"⟩], nextId := 3 }

theorem user_store_create_get_contract_witness :
    (create_user dbW "Carol" "pw").2 = .ok { user_id := 3, username := "Carol" }
    ∧ read_user (create_user dbW "Carol" "pw").1 3
      = .ok { user_id := 3, username := "Carol" } :=
  (user_store_create_get_contract dbW "Carol" "pw" 3 (by decide)).2.2.1 (by decide)

/-- C10: the user id answered by user creation is the table-wide
`SELECT MAX(user_id)` taken after the insert, not the identity of the
inserted row itself: it equals the new row's id exactly when no row with a
larger id was committed between the insert and the query. -/
theorem create_user_returns_table_max
    (db : DB) (username password : String) (others : List UserRow)
    (hno : ¬ ∃ r ∈ db.rows, r.username = username)
    (hwf : ∀ r ∈ db.rows, r.user_id < db.nextId) :
    ((create_user_interleaved db username password others).2
      = .ok { user_id := maxUserId (db.rows
                ++ [(⟨db.nextId, username, password⟩ : UserRow)] ++ others),
              username := username })
    ∧ (((create_user_interleaved db username password others).2
        = .ok { user_id := db.nextId, username := username })
      ↔ ∀ r ∈ others, r.user_id ≤ db.nextId) := by
  have hf : db.rows.find? (fun r => r.username == username) = none :=
    (find?_username_none_iff db.rows username).mpr hno
  have hrows : maxUserId db.rows ≤ db.nextId :=
    (maxUserId_le_iff _ _).mpr (fun r hr => Nat.le_of_lt (hwf r hr))
  have hsing : maxUserId [(⟨db.nextId, username, password⟩ : UserRow)] = db.nextId := by
    simp [maxUserId, List.foldl]
  have hmax : maxUserId (db.rows ++ [(⟨db.nextId, username, password⟩ : UserRow)]
        ++ others)
      = max db.nextId (maxUserId others) := by
    rw [maxUserId_append, maxUserId_append, hsing]
    omega
  constructor
  · unfold create_user_interleaved
    rw [hf]
  · unfold create_user_interleaved
    rw [hf]
    dsimp only
    rw [hmax]
    simp only [Except.ok.injEq, User.mk.injEq, and_true]
    constructor
    · intro h
      have h2 : maxUserId others ≤ db.nextId := by omega
      exact (maxUserId_le_iff _ _).mp h2
    · intro h
      have h2 : maxUserId others ≤ db.nextId := (maxUserId_le_iff _ _).mpr h
      omega

/-- Rows committed by a concurrent request between this request's insert and
its max query; one of them has a larger id than the new row. -/
def othersW : List UserRow := [⟨10, "Eve", "pw10"⟩]

theorem create_user_returns_table_max_witness :
    maxUserId (dbW.rows ++ [(⟨3, "Carol", "pw"⟩ : UserRow)] ++ othersW) = 10
    ∧ (create_user_interleaved dbW "Carol" "pw" othersW).2
      = .ok { user_id := maxUserId (dbW.rows
                ++ [(⟨3, "Carol", "pw"⟩ : UserRow)] ++ othersW),
              username := "Carol" }
    ∧ ¬ ∀ r ∈ othersW, r.user_id ≤ dbW.nextId :=
  ⟨by decide,
   (create_user_returns_table_max dbW "Carol" "pw" othersW (by decide) (by decide)).1,
   by decide⟩
